/-
Verification of the NTS-KE protocol engine of network-time-pester.

We shallowly embed the code of `src/nts_ke.rs` and `src/nts.rs` (plus the
record codec and the session/cookie manager, which the crate pulls in from
outside `src/`) and prove the spec's claims about it.

Conventions:
  * machine bytes and u16 values are `Nat` with explicit bounds where they
    matter; byte buffers are `List Nat`;
  * fallible Rust functions returning `TestResult<T>` become
    `Except TestError T`;
  * I/O effects (TLS reads/writes, DNS resolution, the TLS key exporter)
    are passed in explicitly as functional environments, so that every
    definition is executable.
-/
import Mathlib

set_option maxHeartbeats 1000000
set_option maxRecDepth 16000

namespace Pester

/-! ## Basic data model

Mirrors `ntp_proto::NtsRecord` as used (destructured) throughout
`src/nts_ke.rs`, and the crate's own wrappers `NtsCookie` (src/nts.rs),
`Response` (src/nts_ke.rs) and `TestError` (src/util/result.rs). -/

/-- Type `NtsCookie` from src/nts.rs: a wrapper around raw cookie bytes,
compared only as an opaque token. -/
structure NtsCookie where
  data : List Nat
deriving DecidableEq, Repr

/-- The NTS-KE record type (`ntp_proto::NtsRecord`), with exactly the
variants and fields `src/nts_ke.rs` matches on. -/
inductive NtsRecord where
  | EndOfMessage : NtsRecord
  | NextProtocol (protocol_ids : List Nat) : NtsRecord
  | Error (errorcode : Nat) : NtsRecord
  | Warning (warningcode : Nat) : NtsRecord
  | AeadAlgorithm (critical : Bool) (algorithm_ids : List Nat) : NtsRecord
  | NewCookie (cookie_data : List Nat) : NtsRecord
  | Server (critical : Bool) (name : String) : NtsRecord
  | Port (critical : Bool) (port : Nat) : NtsRecord
  | Unknown (record_type : Nat) (critical : Bool) (data : List Nat) : NtsRecord
deriving DecidableEq, Repr

/-- Type `Response` from src/nts_ke.rs: the validated aggregate of one full
received record sequence. -/
structure Response where
  next_protocol : Option (List Nat)
  errors : List Nat
  warnings : List Nat
  aead : Option (List Nat)
  cookies : List NtsCookie
  server : Option String
  port : Option Nat
deriving DecidableEq, Repr

/-- The payload a `TestError::Fail` can carry: `fail(msg, x)` converts `x`
into the crate-level `Response` diagnostic type, which can hold either a
raw record list or a parsed NTS-KE `Response`. -/
inductive FailData where
  | records (rs : List NtsRecord) : FailData
  | response (r : Response) : FailData
deriving DecidableEq, Repr

/-- Type `TestError` from src/util/result.rs. Dynamic `format!` suffixes of
messages are elided; the fixed message prefixes are kept verbatim. -/
inductive TestError where
  | Fail (msg : String) (data : Option FailData) : TestError
  | Skipped : TestError
  | Error (msg : String) : TestError
deriving DecidableEq, Repr

/-- Function `fail` from src/util/result.rs, at record-list payload. -/
def failRecords (msg : String) (rs : List NtsRecord) : Except TestError α :=
  .error (.Fail msg (some (.records rs)))

/-- Function `fail` from src/util/result.rs, at parsed-response payload. -/
def failResponse (msg : String) (r : Response) : Except TestError α :=
  .error (.Fail msg (some (.response r)))

/-! ## Record codec

Modelled from the spec: the binary codec for one NTS-KE record lives in the
external `ntp_proto` crate (`NtsRecord::write` / record parsing), not under
`src/`.  Spec §6 gives the wire format: `type:u16 (bit15=critical,
bits0-14=code) | body_length:u16 | body`, big-endian, with recognized codes
0=EndOfMessage, 1=NextProtocol(list<u16>), 2=Error(u16), 3=Warning(u16),
4=AeadAlgorithm(list<u16>), 5=NewCookie(opaque bytes), 6=Server(UTF-8),
7=Port(u16); unknown codes decode to `Unknown` with the raw body retained
(spec §4.1). -/

/-- Big-endian serialization of a 16-bit value. -/
def u16be (n : Nat) : List Nat := [n / 256 % 256, n % 256]

/-- Serialize a list of 16-bit ids. -/
def u16ListEnc (ns : List Nat) : List Nat := (ns.map u16be).flatten

/-- Parse a byte buffer as a list of big-endian 16-bit values; fails on odd
length. -/
def u16ListDec : List Nat → Option (List Nat)
  | [] => some []
  | b0 :: b1 :: rest => (u16ListDec rest).map (fun ns => (b0 * 256 + b1) :: ns)
  | [_] => none

/-- UTF-8 encoding of one Unicode code point (assumed `< 0x110000`). -/
def utf8EncodeCp (c : Nat) : List Nat :=
  if c < 0x80 then [c]
  else if c < 0x800 then [0xC0 + c / 64, 0x80 + c % 64]
  else if c < 0x10000 then [0xE0 + c / 4096, 0x80 + c / 64 % 64, 0x80 + c % 64]
  else [0xF0 + c / 262144, 0x80 + c / 4096 % 64, 0x80 + c / 64 % 64, 0x80 + c % 64]

/-- Is `b` a UTF-8 continuation byte? -/
def isUtf8Cont (b : Nat) : Bool := 0x80 ≤ b && b < 0xC0

/-- Decode one UTF-8 code point from the front of a buffer, returning the
code point and the remaining bytes.  Rejects overlong encodings,
surrogates and values above 0x10FFFF. -/
def utf8DecodeOne : List Nat → Option (Nat × List Nat)
  | [] => none
  | b :: rest =>
    if b < 0x80 then some (b, rest)
    else if b < 0xC2 then none
    else if b < 0xE0 then
      match rest with
      | b1 :: r => if isUtf8Cont b1 then some ((b - 0xC0) * 64 + (b1 - 0x80), r) else none
      | [] => none
    else if b < 0xF0 then
      match rest with
      | b1 :: b2 :: r =>
        if isUtf8Cont b1 && isUtf8Cont b2 then
          let c := (b - 0xE0) * 4096 + (b1 - 0x80) * 64 + (b2 - 0x80)
          if 0x800 ≤ c ∧ ¬(0xD800 ≤ c ∧ c ≤ 0xDFFF) then some (c, r) else none
        else none
      | _ => none
    else if b < 0xF5 then
      match rest with
      | b1 :: b2 :: b3 :: r =>
        if isUtf8Cont b1 && isUtf8Cont b2 && isUtf8Cont b3 then
          let c := (b - 0xF0) * 262144 + (b1 - 0x80) * 4096 + (b2 - 0x80) * 64 + (b3 - 0x80)
          if 0x10000 ≤ c ∧ c < 0x110000 then some (c, r) else none
        else none
      | _ => none
    else none

theorem utf8DecodeOne_length {bs : List Nat} {c : Nat} {rem : List Nat}
    (h : utf8DecodeOne bs = some (c, rem)) : rem.length < bs.length := by
  match bs with
  | [] => simp [utf8DecodeOne] at h
  | b :: rest =>
    simp only [utf8DecodeOne] at h
    repeat' split at h
    all_goals first
      | (cases h; simp only [List.length_cons]; omega)
      | cases h

/-- Decode a whole buffer as a sequence of UTF-8 code points. -/
def utf8DecodeList (bs : List Nat) : Option (List Nat) :=
  match bs with
  | [] => some []
  | b :: rest =>
    match h : utf8DecodeOne (b :: rest) with
    | none => none
    | some (c, rem) => (utf8DecodeList rem).map (fun cs => c :: cs)
termination_by bs.length
decreasing_by exact utf8DecodeOne_length h

/-- UTF-8 bytes of a string. -/
def strEncode (s : String) : List Nat :=
  (s.data.map (fun ch => utf8EncodeCp ch.toNat)).flatten

/-- Decode a byte buffer as a UTF-8 string. -/
def strDecode (bs : List Nat) : Option String :=
  (utf8DecodeList bs).map (fun cs => String.mk (cs.map Char.ofNat))

theorem utf8DecodeOne_encode {c : Nat} (hc : c < 0xD800 ∨ (0xDFFF < c ∧ c < 0x110000))
    (tl : List Nat) : utf8DecodeOne (utf8EncodeCp c ++ tl) = some (c, tl) := by
  by_cases h1 : c < 0x80
  · simp [utf8EncodeCp, utf8DecodeOne, h1]
  · by_cases h2 : c < 0x800
    · simp only [utf8EncodeCp, if_neg h1, if_pos h2, List.cons_append, List.nil_append,
        utf8DecodeOne]
      have hcont : isUtf8Cont (0x80 + c % 64) = true := by
        simp only [isUtf8Cont, Bool.and_eq_true, decide_eq_true_eq]; omega
      rw [if_neg (by omega), if_neg (by omega), if_pos (by omega), if_pos hcont]
      have hval : (0xC0 + c / 64 - 0xC0) * 64 + (0x80 + c % 64 - 0x80) = c := by omega
      rw [hval]
    · by_cases h3 : c < 0x10000
      · simp only [utf8EncodeCp, if_neg h1, if_neg h2, if_pos h3, List.cons_append,
          List.nil_append, utf8DecodeOne]
        have hc1 : isUtf8Cont (0x80 + c / 64 % 64) = true := by
          simp only [isUtf8Cont, Bool.and_eq_true, decide_eq_true_eq]; omega
        have hc2 : isUtf8Cont (0x80 + c % 64) = true := by
          simp only [isUtf8Cont, Bool.and_eq_true, decide_eq_true_eq]; omega
        rw [if_neg (by omega), if_neg (by omega), if_neg (by omega), if_pos (by omega)]
        rw [hc1, hc2]
        have hval : (0xE0 + c / 4096 - 0xE0) * 4096 + (0x80 + c / 64 % 64 - 0x80) * 64 +
            (0x80 + c % 64 - 0x80) = c := by omega
        simp only [Bool.and_self, if_pos, hval]
        rw [if_pos (by omega)]
      · simp only [utf8EncodeCp, if_neg h1, if_neg h2, if_neg h3, List.cons_append,
          List.nil_append, utf8DecodeOne]
        have hc1 : isUtf8Cont (0x80 + c / 4096 % 64) = true := by
          simp only [isUtf8Cont, Bool.and_eq_true, decide_eq_true_eq]; omega
        have hc2 : isUtf8Cont (0x80 + c / 64 % 64) = true := by
          simp only [isUtf8Cont, Bool.and_eq_true, decide_eq_true_eq]; omega
        have hc3 : isUtf8Cont (0x80 + c % 64) = true := by
          simp only [isUtf8Cont, Bool.and_eq_true, decide_eq_true_eq]; omega
        rw [if_neg (by omega), if_neg (by omega), if_neg (by omega), if_neg (by omega),
          if_pos (by omega)]
        rw [hc1, hc2, hc3]
        have hval : (0xF0 + c / 262144 - 0xF0) * 262144 + (0x80 + c / 4096 % 64 - 0x80) * 4096 +
            (0x80 + c / 64 % 64 - 0x80) * 64 + (0x80 + c % 64 - 0x80) = c := by omega
        simp only [Bool.and_self, if_pos, hval]
        rw [if_pos (by omega)]

theorem utf8DecodeList_nil : utf8DecodeList [] = some [] := by
  simp [utf8DecodeList]

theorem utf8DecodeList_encode_cons {c : Nat}
    (hc : c < 0xD800 ∨ (0xDFFF < c ∧ c < 0x110000)) (tl : List Nat) :
    utf8DecodeList (utf8EncodeCp c ++ tl) =
      (utf8DecodeList tl).map (fun cs => c :: cs) := by
  have hne : ∃ b rest, utf8EncodeCp c ++ tl = b :: rest := by
    unfold utf8EncodeCp
    split
    · exact ⟨_, _, rfl⟩
    · split
      · exact ⟨_, _, rfl⟩
      · split
        · exact ⟨_, _, rfl⟩
        · exact ⟨_, _, rfl⟩
  obtain ⟨b, rest, hbr⟩ := hne
  rw [hbr, utf8DecodeList, ← hbr, utf8DecodeOne_encode hc]

theorem utf8DecodeList_strEncode (cs : List Char) :
    utf8DecodeList ((cs.map (fun ch => utf8EncodeCp ch.toNat)).flatten) =
      some (cs.map Char.toNat) := by
  induction cs with
  | nil => rw [List.map_nil, List.map_nil, List.flatten_nil]; exact utf8DecodeList_nil
  | cons ch rest ih =>
    have hvalid : ch.toNat < 0xD800 ∨ (0xDFFF < ch.toNat ∧ ch.toNat < 0x110000) := ch.valid
    simp only [List.map_cons, List.flatten_cons]
    rw [utf8DecodeList_encode_cons hvalid, ih]
    rfl

theorem strDecode_strEncode (s : String) : strDecode (strEncode s) = some s := by
  unfold strDecode strEncode
  rw [utf8DecodeList_strEncode s.data]
  simp only [Option.map_some', Option.some.injEq, List.map_map]
  have : (Char.ofNat ∘ Char.toNat) = id := by
    funext c
    exact Char.ofNat_toNat c
  rw [this, List.map_id]

theorem u16ListDec_enc {ns : List Nat} (h : ∀ n ∈ ns, n < 65536) :
    u16ListDec (u16ListEnc ns) = some ns := by
  induction ns with
  | nil => simp [u16ListEnc, u16ListDec]
  | cons n rest ih =>
    have hn : n < 65536 := h n (by simp)
    have hrest := ih (fun m hm => h m (by simp [hm]))
    have henc : u16ListEnc (n :: rest) = (n / 256 % 256) :: (n % 256) :: u16ListEnc rest := by
      simp [u16ListEnc, u16be]
    rw [henc]
    simp only [u16ListDec]
    rw [hrest]
    simp only [Option.map_some', Option.some.injEq, List.cons.injEq, and_true]
    omega

/-- Bits 0-14 of a record's wire type field: the record code (spec §6). -/
def recordCode : NtsRecord → Nat
  | .EndOfMessage => 0
  | .NextProtocol _ => 1
  | .Error _ => 2
  | .Warning _ => 3
  | .AeadAlgorithm _ _ => 4
  | .NewCookie _ => 5
  | .Server _ _ => 6
  | .Port _ _ => 7
  | .Unknown ty _ _ => ty

/-- Bit 15 of a record's wire type field.  EndOfMessage, NextProtocol,
Error and Warning are always sent critical (RFC 8915 mandates it); the
records carrying an explicit flag use it. -/
def recordCritical : NtsRecord → Bool
  | .EndOfMessage => true
  | .NextProtocol _ => true
  | .Error _ => true
  | .Warning _ => true
  | .AeadAlgorithm c _ => c
  | .NewCookie _ => false
  | .Server c _ => c
  | .Port c _ => c
  | .Unknown _ c _ => c

/-- The type-specific record body (spec §6): lists of 16-bit ids, opaque
cookie bytes, UTF-8 name, 16-bit port. -/
def recordBody : NtsRecord → List Nat
  | .EndOfMessage => []
  | .NextProtocol ids => u16ListEnc ids
  | .Error e => u16be e
  | .Warning w => u16be w
  | .AeadAlgorithm _ ids => u16ListEnc ids
  | .NewCookie d => d
  | .Server _ name => strEncode name
  | .Port _ p => u16be p
  | .Unknown _ _ d => d

/-- Encoder `encode(record) -> bytes` (spec §4.1): pure serialization, never
fails.  Wire layout: 2-byte type+critical-bit field, 2-byte body length,
variable body. -/
def encodeRecord (r : NtsRecord) : List Nat :=
  let t := recordCode r + (if recordCritical r then 32768 else 0)
  let body := recordBody r
  u16be t ++ u16be body.length ++ body

/-- Result of `decode(buffer)` (spec §4.1). -/
inductive DecodeResult where
  | done (record : NtsRecord) (consumed : Nat) : DecodeResult
  | needMoreData : DecodeResult
  | invalidEncoding : DecodeResult
deriving DecidableEq, Repr

/-- Interpret a record body given the record code and critical bit.
Unrecognized codes yield `Unknown` with the raw body retained, never a
failure (spec §4.1 forward-compatibility requirement). -/
def decodeBody (code : Nat) (critical : Bool) (body : List Nat) : Option NtsRecord :=
  if code = 0 then some .EndOfMessage
  else if code = 1 then (u16ListDec body).map (fun ids => .NextProtocol ids)
  else if code = 2 then
    match body with
    | [b0, b1] => some (.Error (b0 * 256 + b1))
    | _ => none
  else if code = 3 then
    match body with
    | [b0, b1] => some (.Warning (b0 * 256 + b1))
    | _ => none
  else if code = 4 then (u16ListDec body).map (fun ids => .AeadAlgorithm critical ids)
  else if code = 5 then some (.NewCookie body)
  else if code = 6 then (strDecode body).map (fun name => .Server critical name)
  else if code = 7 then
    match body with
    | [b0, b1] => some (.Port critical (b0 * 256 + b1))
    | _ => none
  else some (.Unknown code critical body)

/-- Decoder `decode(buffer) -> (record, consumed_length) | NeedMoreData |
InvalidEncoding` (spec §4.1). -/
def decodeRecord : List Nat → DecodeResult
  | b0 :: b1 :: b2 :: b3 :: rest =>
    let t := b0 * 256 + b1
    let blen := b2 * 256 + b3
    if blen ≤ rest.length then
      match decodeBody (t % 32768) (decide (32768 ≤ t)) (rest.take blen) with
      | some r => .done r (4 + blen)
      | none => .invalidEncoding
    else .needMoreData
  | _ => .needMoreData

/-- A record is constructible on the wire: its numeric fields fit the
16-bit (ids, codes, port, body length) and 8-bit (raw bytes) wire slots,
and an `Unknown` record carries an unreserved 15-bit code. -/
def wfRecord : NtsRecord → Prop
  | .EndOfMessage => True
  | .NextProtocol ids => (∀ n ∈ ids, n < 65536) ∧ 2 * ids.length < 65536
  | .Error e => e < 65536
  | .Warning w => w < 65536
  | .AeadAlgorithm _ ids => (∀ n ∈ ids, n < 65536) ∧ 2 * ids.length < 65536
  | .NewCookie d => (∀ b ∈ d, b < 256) ∧ d.length < 65536
  | .Server _ name => (strEncode name).length < 65536
  | .Port _ p => p < 65536
  | .Unknown ty _ d => 8 ≤ ty ∧ ty < 32768 ∧ (∀ b ∈ d, b < 256) ∧ d.length < 65536

theorem u16ListEnc_length (ns : List Nat) : (u16ListEnc ns).length = 2 * ns.length := by
  induction ns with
  | nil => rfl
  | cons n rest ih =>
    simp only [u16ListEnc, List.map_cons, List.flatten_cons, List.length_append, u16be,
      List.length_cons, List.length_nil, List.length_map] at ih ⊢
    omega

theorem decodeRecord_header (t : Nat) (body : List Nat) (ht : t < 65536)
    (hlen : body.length < 65536) :
    decodeRecord (u16be t ++ (u16be body.length ++ body)) =
      (match decodeBody (t % 32768) (decide (32768 ≤ t)) body with
       | some r => .done r (4 + body.length)
       | none => .invalidEncoding) := by
  simp only [u16be, List.cons_append, List.nil_append, decodeRecord]
  have h1 : t / 256 % 256 * 256 + t % 256 = t := by omega
  have h2 : body.length / 256 % 256 * 256 + body.length % 256 = body.length := by omega
  rw [h1, h2, if_pos (le_refl body.length), List.take_length]

theorem encodeRecord_length (r : NtsRecord) :
    (encodeRecord r).length = 4 + (recordBody r).length := by
  simp only [encodeRecord, List.length_append, u16be, List.length_cons, List.length_nil]

theorem decodeRecord_encodeRecord {r : NtsRecord} (hr : wfRecord r) :
    decodeRecord (encodeRecord r) = .done r (encodeRecord r).length := by
  rw [encodeRecord_length]
  cases r with
  | EndOfMessage =>
    decide
  | NextProtocol ids =>
    obtain ⟨hids, hlen⟩ := hr
    simp only [encodeRecord, recordCode, recordCritical, recordBody]
    norm_num
    rw [decodeRecord_header 32769 (u16ListEnc ids) (by norm_num)
      (by rw [u16ListEnc_length]; omega)]
    norm_num [decodeBody]
    rw [u16ListDec_enc hids]
    rfl
  | Error e =>
    have he : e < 65536 := hr
    simp only [encodeRecord, recordCode, recordCritical, recordBody]
    norm_num
    rw [decodeRecord_header 32770 (u16be e) (by norm_num) (by simp [u16be])]
    norm_num [decodeBody, u16be]
    omega
  | Warning w =>
    have hw : w < 65536 := hr
    simp only [encodeRecord, recordCode, recordCritical, recordBody]
    norm_num
    rw [decodeRecord_header 32771 (u16be w) (by norm_num) (by simp [u16be])]
    norm_num [decodeBody, u16be]
    omega
  | AeadAlgorithm crit ids =>
    obtain ⟨hids, hlen⟩ := hr
    cases crit with
    | false =>
      simp only [encodeRecord, recordCode, recordCritical, recordBody]
      norm_num
      rw [decodeRecord_header 4 (u16ListEnc ids) (by norm_num)
        (by rw [u16ListEnc_length]; omega)]
      norm_num [decodeBody]
      rw [u16ListDec_enc hids]
      rfl
    | true =>
      simp only [encodeRecord, recordCode, recordCritical, recordBody]
      norm_num
      rw [decodeRecord_header 32772 (u16ListEnc ids) (by norm_num)
        (by rw [u16ListEnc_length]; omega)]
      norm_num [decodeBody]
      rw [u16ListDec_enc hids]
      rfl
  | NewCookie d =>
    obtain ⟨-, hlen⟩ := hr
    simp only [encodeRecord, recordCode, recordCritical, recordBody]
    norm_num
    rw [decodeRecord_header 5 d (by norm_num) (by omega)]
    norm_num [decodeBody]
  | Server crit name =>
    cases crit with
    | false =>
      simp only [encodeRecord, recordCode, recordCritical, recordBody]
      norm_num
      rw [decodeRecord_header 6 (strEncode name) (by norm_num) hr]
      norm_num [decodeBody]
      rw [strDecode_strEncode]
      rfl
    | true =>
      simp only [encodeRecord, recordCode, recordCritical, recordBody]
      norm_num
      rw [decodeRecord_header 32774 (strEncode name) (by norm_num) hr]
      norm_num [decodeBody]
      rw [strDecode_strEncode]
      rfl
  | Port crit p =>
    have hp : p < 65536 := hr
    cases crit with
    | false =>
      simp only [encodeRecord, recordCode, recordCritical, recordBody]
      norm_num
      rw [decodeRecord_header 7 (u16be p) (by norm_num) (by simp [u16be])]
      norm_num [decodeBody, u16be]
      omega
    | true =>
      simp only [encodeRecord, recordCode, recordCritical, recordBody]
      norm_num
      rw [decodeRecord_header 32775 (u16be p) (by norm_num) (by simp [u16be])]
      norm_num [decodeBody, u16be]
      omega
  | Unknown ty crit d =>
    obtain ⟨hty8, hty, -, hlen⟩ := hr
    cases crit with
    | false =>
      simp only [encodeRecord, recordCode, recordCritical, recordBody]
      norm_num
      rw [decodeRecord_header ty d (by omega) (by omega)]
      have hmod : ty % 32768 = ty := Nat.mod_eq_of_lt hty
      have hdec : decide (32768 ≤ ty) = false := by
        simp only [decide_eq_false_iff_not]
        omega
      rw [hmod, hdec]
      simp only [decodeBody, if_neg (by omega : ¬ ty = 0), if_neg (by omega : ¬ ty = 1),
        if_neg (by omega : ¬ ty = 2), if_neg (by omega : ¬ ty = 3),
        if_neg (by omega : ¬ ty = 4), if_neg (by omega : ¬ ty = 5),
        if_neg (by omega : ¬ ty = 6), if_neg (by omega : ¬ ty = 7)]
    | true =>
      simp only [encodeRecord, recordCode, recordCritical, recordBody]
      norm_num
      rw [decodeRecord_header (ty + 32768) d (by omega) (by omega)]
      have hmod : (ty + 32768) % 32768 = ty := by omega
      have hdec : decide (32768 ≤ ty + 32768) = true := by
        simp only [decide_eq_true_eq]
        omega
      rw [hmod, hdec]
      simp only [decodeBody, if_neg (by omega : ¬ ty = 0), if_neg (by omega : ¬ ty = 1),
        if_neg (by omega : ¬ ty = 2), if_neg (by omega : ¬ ty = 3),
        if_neg (by omega : ¬ ty = 4), if_neg (by omega : ¬ ty = 5),
        if_neg (by omega : ¬ ty = 6), if_neg (by omega : ¬ ty = 7)]

/-! ## Response validation (`Response::try_from`, src/nts_ke.rs lines 312-395) -/

/-- The all-empty accumulator `Response::try_from` starts from. -/
def emptyResponse : Response :=
  { next_protocol := none, errors := [], warnings := [], aead := none,
    cookies := [], server := none, port := none }

/-- The `for rec in iter_records` loop of `Response::try_from`
(src/nts_ke.rs): fold the records before the final EndOfMessage into the
accumulator, rejecting a duplicate once-only field and any unexpected
record.  `records` is the full raw record list that every failure carries. -/
def responseFold (records : List NtsRecord) :
    List NtsRecord → Response → Except TestError Response
  | [], acc => .ok acc
  | rec :: rest, acc =>
    match rec with
    | .NextProtocol protocol_ids =>
      if acc.next_protocol.isSome then
        failRecords "Response included more then one NTS Next Protocol Negotiation record"
          records
      else responseFold records rest { acc with next_protocol := some protocol_ids }
    | .Error errorcode =>
      responseFold records rest { acc with errors := acc.errors ++ [errorcode] }
    | .Warning warningcode =>
      responseFold records rest { acc with warnings := acc.warnings ++ [warningcode] }
    | .AeadAlgorithm _ algorithm_ids =>
      if acc.aead.isSome then
        failRecords "Response included more then one AEAD Algorithm Negotiation record" records
      else responseFold records rest { acc with aead := some algorithm_ids }
    | .NewCookie cookie_data =>
      responseFold records rest { acc with cookies := acc.cookies ++ [⟨cookie_data⟩] }
    | .Server _ name =>
      if acc.server.isSome then
        failRecords "Response included more then one NTPv4 Server Negotiation record" records
      else responseFold records rest { acc with server := some name }
    | .Port _ rec_port =>
      if acc.port.isSome then
        failRecords "Response included more then one NTPv4 Port Negotiation record" records
      else responseFold records rest { acc with port := some rec_port }
    | _ =>
      failRecords "Response included an unexpected field" records

/-- Function `Response::try_from` (src/nts_ke.rs): pop the last record, require it
to be EndOfMessage, then fold the remaining records. -/
def Response.tryFrom (records : List NtsRecord) : Except TestError Response :=
  if records.getLast? = some NtsRecord.EndOfMessage then
    responseFold records records.dropLast emptyResponse
  else
    failRecords "Response did not end in EndOfMessage instead ended in" records

/-! Record classifiers used to state the validation claims. -/

def isEOMRec : NtsRecord → Bool
  | .EndOfMessage => true
  | _ => false

def isNPRec : NtsRecord → Bool
  | .NextProtocol _ => true
  | _ => false

def isAeadRec : NtsRecord → Bool
  | .AeadAlgorithm _ _ => true
  | _ => false

def isServerRec : NtsRecord → Bool
  | .Server _ _ => true
  | _ => false

def isPortRec : NtsRecord → Bool
  | .Port _ _ => true
  | _ => false

def isUnknownRec : NtsRecord → Bool
  | .Unknown _ _ _ => true
  | _ => false

theorem responseFold_err {records rest : List NtsRecord} {acc : Response} {e : TestError}
    (h : responseFold records rest acc = .error e) :
    ∃ msg, e = .Fail msg (some (.records records)) := by
  induction rest generalizing acc with
  | nil => simp [responseFold] at h
  | cons rec rest ih =>
    cases rec <;> simp only [responseFold, failRecords] at h <;>
      first
        | exact ih h
        | exact ⟨_, (Except.error.inj h).symm⟩
        | (split at h
           · exact ⟨_, (Except.error.inj h).symm⟩
           · exact ih h)

theorem responseFold_ok_iff (records rest : List NtsRecord) (acc : Response) :
    (∃ resp, responseFold records rest acc = .ok resp) ↔
      (rest.countP isEOMRec = 0 ∧ rest.countP isUnknownRec = 0 ∧
       rest.countP isNPRec + (if acc.next_protocol.isSome then 1 else 0) ≤ 1 ∧
       rest.countP isAeadRec + (if acc.aead.isSome then 1 else 0) ≤ 1 ∧
       rest.countP isServerRec + (if acc.server.isSome then 1 else 0) ≤ 1 ∧
       rest.countP isPortRec + (if acc.port.isSome then 1 else 0) ≤ 1) := by
  induction rest generalizing acc with
  | nil =>
    simp only [responseFold, List.countP_nil]
    constructor
    · intro
      refine ⟨by trivial, by trivial, ?_, ?_, ?_, ?_⟩ <;> split_ifs <;> omega
    · intro
      exact ⟨acc, rfl⟩
  | cons rec rest ih =>
    cases rec with
    | EndOfMessage =>
      simp [responseFold, failRecords, List.countP_cons, isEOMRec, isUnknownRec, isNPRec,
        isAeadRec, isServerRec, isPortRec]
    | Unknown ty crit d =>
      simp [responseFold, failRecords, List.countP_cons, isEOMRec, isUnknownRec, isNPRec,
        isAeadRec, isServerRec, isPortRec]
    | Error ec =>
      simp [responseFold, ih, List.countP_cons, isEOMRec, isUnknownRec, isNPRec,
        isAeadRec, isServerRec, isPortRec]
    | Warning wc =>
      simp [responseFold, ih, List.countP_cons, isEOMRec, isUnknownRec, isNPRec,
        isAeadRec, isServerRec, isPortRec]
    | NewCookie cd =>
      simp [responseFold, ih, List.countP_cons, isEOMRec, isUnknownRec, isNPRec,
        isAeadRec, isServerRec, isPortRec]
    | NextProtocol ids =>
      simp only [responseFold]
      by_cases hx : acc.next_protocol.isSome <;>
        simp [hx, ih, failRecords, List.countP_cons, isEOMRec, isUnknownRec, isNPRec,
          isAeadRec, isServerRec, isPortRec] <;>
        split_ifs <;> omega
    | AeadAlgorithm crit ids =>
      simp only [responseFold]
      by_cases hx : acc.aead.isSome <;>
        simp [hx, ih, failRecords, List.countP_cons, isEOMRec, isUnknownRec, isNPRec,
          isAeadRec, isServerRec, isPortRec] <;>
        split_ifs <;> omega
    | Server crit name =>
      simp only [responseFold]
      by_cases hx : acc.server.isSome <;>
        simp [hx, ih, failRecords, List.countP_cons, isEOMRec, isUnknownRec, isNPRec,
          isAeadRec, isServerRec, isPortRec] <;>
        split_ifs <;> omega
    | Port crit p =>
      simp only [responseFold]
      by_cases hx : acc.port.isSome <;>
        simp [hx, ih, failRecords, List.countP_cons, isEOMRec, isUnknownRec, isNPRec,
          isAeadRec, isServerRec, isPortRec] <;>
        split_ifs <;> omega

theorem tryFrom_ok_iff (records : List NtsRecord) :
    (∃ resp, Response.tryFrom records = .ok resp) ↔
      (records.getLast? = some NtsRecord.EndOfMessage ∧
       records.countP isEOMRec = 1 ∧
       records.countP isNPRec ≤ 1 ∧ records.countP isAeadRec ≤ 1 ∧
       records.countP isServerRec ≤ 1 ∧ records.countP isPortRec ≤ 1 ∧
       records.countP isUnknownRec = 0) := by
  unfold Response.tryFrom
  by_cases hlast : records.getLast? = some NtsRecord.EndOfMessage
  · obtain ⟨front, rfl⟩ := List.getLast?_eq_some_iff.mp hlast
    rw [if_pos hlast, responseFold_ok_iff, List.dropLast_concat]
    simp [List.countP_append, List.countP_cons, isEOMRec, isUnknownRec, isNPRec, isAeadRec,
      isServerRec, isPortRec, emptyResponse, List.getLast?_concat]
    tauto
  · rw [if_neg hlast]
    simp [failRecords, hlast]

theorem tryFrom_err {records : List NtsRecord} {e : TestError}
    (h : Response.tryFrom records = .error e) :
    ∃ msg, e = .Fail msg (some (.records records)) := by
  unfold Response.tryFrom at h
  split at h
  · exact responseFold_err h
  · exact ⟨_, (Except.error.inj h).symm⟩

/-! ## Request construction (`Request`, src/nts_ke.rs lines 243-298) -/

/-- Type `Request` from src/nts_ke.rs: convenience wrapper around all fields
needed for a NTS-KE request. -/
structure Request where
  next_protocol : List Nat
  aead : List Nat
  critical_aead : Bool
  server : Option String
  port : Option Nat
deriving DecidableEq, Repr

/-- Instance `Default for Request` (src/nts_ke.rs): protocol 0, AEAD 15,
non-critical, no server/port override. -/
def Request.defaultRequest : Request :=
  { next_protocol := [0], aead := [15], critical_aead := false,
    server := none, port := none }

/-- Instance `IntoIterator for Request` (src/nts_ke.rs): push NextProtocol, then
AeadAlgorithm, then the optional Server, then the optional Port, then
EndOfMessage. -/
def Request.intoIter (self : Request) : List NtsRecord :=
  let recs := [NtsRecord.NextProtocol self.next_protocol]
  let recs := recs ++ [NtsRecord.AeadAlgorithm self.critical_aead self.aead]
  let recs := recs ++
    (match self.server with
     | some server => [NtsRecord.Server false server]
     | none => [])
  let recs := recs ++
    (match self.port with
     | some port => [NtsRecord.Port false port]
     | none => [])
  recs ++ [NtsRecord.EndOfMessage]

/-! ## Critical-flag irrelevance of response validation -/

/-- Erase the critical flag of the records that carry one and whose flag
`Response::try_from` ignores (AeadAlgorithm, Server, Port).  Two record
lists differing only in those flags have equal `map stripCrit` images. -/
def stripCrit : NtsRecord → NtsRecord
  | .AeadAlgorithm _ ids => .AeadAlgorithm false ids
  | .Server _ name => .Server false name
  | .Port _ port => .Port false port
  | r => r

/-- Forget which error a failed computation produced. -/
def resultOk : Except TestError α → Option α
  | .ok v => some v
  | .error _ => none

theorem responseFold_stripCrit (records records2 l : List NtsRecord) :
    ∀ acc, resultOk (responseFold records l acc) =
      resultOk (responseFold records2 (l.map stripCrit) acc) := by
  induction l with
  | nil => intro acc; rfl
  | cons rec rest ih =>
    intro acc
    cases rec <;>
      simp only [List.map_cons, stripCrit, responseFold] <;>
      first
        | rfl
        | exact ih _
        | (split
           · rfl
           · exact ih _)

theorem tryFrom_stripCrit {l l2 : List NtsRecord}
    (h : l.map stripCrit = l2.map stripCrit) :
    resultOk (Response.tryFrom l) = resultOk (Response.tryFrom l2) := by
  have hlast : l.getLast? = some NtsRecord.EndOfMessage ↔
      l2.getLast? = some NtsRecord.EndOfMessage := by
    have h1 : (l.map stripCrit).getLast? = (l2.map stripCrit).getLast? := by rw [h]
    rw [List.getLast?_map, List.getLast?_map] at h1
    constructor
    · intro hl
      rw [hl] at h1
      cases hl2 : l2.getLast? with
      | none => rw [hl2] at h1; exact Option.noConfusion h1
      | some r =>
        rw [hl2] at h1
        have h2 : NtsRecord.EndOfMessage = stripCrit r := by
          simpa [stripCrit] using h1
        cases r <;> simp [stripCrit] at h2 <;> rfl
    · intro hl
      rw [hl] at h1
      cases hl2 : l.getLast? with
      | none => rw [hl2] at h1; exact Option.noConfusion h1
      | some r =>
        rw [hl2] at h1
        have h2 : stripCrit r = NtsRecord.EndOfMessage := by
          simpa [stripCrit] using h1
        cases r <;> simp [stripCrit] at h2 <;> rfl
  unfold Response.tryFrom
  by_cases hl : l.getLast? = some NtsRecord.EndOfMessage
  · rw [if_pos hl, if_pos (hlast.mp hl)]
    have hdrop : l.dropLast.map stripCrit = l2.dropLast.map stripCrit := by
      rw [List.map_dropLast, List.map_dropLast, h]
    rw [responseFold_stripCrit l l2 l.dropLast emptyResponse, hdrop,
      ← responseFold_stripCrit l2 l2 l2.dropLast emptyResponse]
  · rw [if_neg hl, if_neg (fun h2 => hl (hlast.mpr h2))]
    rfl

/-! ## The exchange loop (`NtsKeConnection::exchange`, src/nts_ke.rs) -/

/-- The receive loop of `NtsKeConnection::exchange`.  `incoming` abstracts
the stream of records `recv_record` yields before the server closes the
connection (a close in the middle of a record's bytes shows up as plain
end-of-stream, because the streaming decoder keeps returning "need more
data" and the next read returns zero bytes).  Accumulate records; at
end-of-stream succeed with the accumulated list when the last record was
EndOfMessage, otherwise fail carrying the accumulated records. -/
def exchangeLoop (acc : List NtsRecord) : List NtsRecord → Except TestError (List NtsRecord)
  | rec :: rest => exchangeLoop (acc ++ [rec]) rest
  | [] =>
    if acc.getLast? = some NtsRecord.EndOfMessage then .ok acc
    else failRecords "NTS-KE closed connection without sending EndOfMessage" acc

/-- Method `NtsKeConnection::exchange` (src/nts_ke.rs): serialize all request
records into one buffer, write it with a single `write_all`, then run the
receive loop and validate the accumulated records as a `Response`.  The
first component is the byte buffer of that single write. -/
def exchange (request : List NtsRecord) (incoming : List NtsRecord) :
    List Nat × Except TestError Response :=
  let buf := (request.map encodeRecord).flatten
  let result :=
    match exchangeLoop [] incoming with
    | .error e => .error e
    | .ok records => Response.tryFrom records
  (buf, result)

theorem exchangeLoop_eq (acc rest : List NtsRecord) :
    exchangeLoop acc rest =
      if (acc ++ rest).getLast? = some NtsRecord.EndOfMessage then .ok (acc ++ rest)
      else failRecords "NTS-KE closed connection without sending EndOfMessage" (acc ++ rest) := by
  induction rest generalizing acc with
  | nil => simp [exchangeLoop]
  | cons rec rest ih =>
    show exchangeLoop (acc ++ [rec]) rest = _
    rw [ih]
    simp

/-! ## `NtsKeConnection::do_request` (src/nts_ke.rs lines 149-200) -/

/-- An abstract resolved UDP socket address; the crate only stores and
compares these. -/
structure SocketAddr where
  addr : String
deriving DecidableEq, Repr

/-- Type `ntp_proto::NtsKeys` as used by the crate: the two directional AEAD
keys, modelled by the raw exported key bytes they are built from
(`AesSivCmac256::new(c2s)` / `::new(s2c)`). -/
structure NtsKeys where
  c2s : List Nat
  s2c : List Nat
deriving DecidableEq, Repr

/-- The TLS exporter label passed by `extract_nts_key` (src/nts_ke.rs):
`b"EXPORTER-network-time-security"`. -/
def exporterLabel : String := "EXPORTER-network-time-security"

/-- Modelled from the spec: `AeadAlgorithm::c2s_context` lives in the
external `ntp_proto` crate.  Spec §6: context = 5 bytes binding the
direction, the negotiated protocol id and the algorithm id; the
client-to-server direction octet is 0. -/
def c2sContext (protocol aead : Nat) : List Nat :=
  [protocol / 256 % 256, protocol % 256, aead / 256 % 256, aead % 256, 0]

/-- Modelled from the spec: `AeadAlgorithm::s2c_context`, the
server-to-client variant of [`c2sContext`] with direction octet 1. -/
def s2cContext (protocol aead : Nat) : List Nat :=
  [protocol / 256 % 256, protocol % 256, aead / 256 % 256, aead % 256, 1]

/-- Modelled from the spec: `AeadAlgorithm::try_deserialize` from the
external `ntp_proto` crate.  Spec §6 names AEAD id 15 (AES-SIV-CMAC-256)
as the mandatory algorithm; ntp-proto also knows AES-SIV-CMAC-512 (17). -/
def aeadTryDeserialize (n : Nat) : Option Nat :=
  if n = 15 ∨ n = 17 then some n else none

/-- Modelled from the spec: `ProtocolId::try_deserialize` from the
external `ntp_proto` crate.  Spec §6: protocol id 0 is NTP v4 over UDP. -/
def protocolTryDeserialize (n : Nat) : Option Nat :=
  if n = 0 then some n else none

/-- The I/O environment a `do_request` run interacts with: the TLS
exporter (`export_keying_material`, label and context to optional key
bytes), DNS resolution (`to_socket_addrs().next()` on "host:port"), and
the records the server streams back. -/
structure KeEnv where
  exporter : String → List Nat → Option (List Nat)
  resolve : String → Nat → Option SocketAddr
  incoming : List NtsRecord

/-- Function `extract_nts_key` (src/nts_ke.rs lines 203-215): export keying
material under the fixed label with the given 5-byte context. -/
def extract_nts_key (exporter : String → List Nat → Option (List Nat))
    (context : List Nat) : Option (List Nat) :=
  exporter exporterLabel context

/-- The fixed request `do_request` sends (src/nts_ke.rs lines 151-160):
NextProtocol [NtpV4 = 0], non-critical AeadAlgorithm [AesSivCmac256 = 15],
EndOfMessage. -/
def do_requestRecords : List NtsRecord :=
  [NtsRecord.NextProtocol [0],
   NtsRecord.AeadAlgorithm false [15],
   NtsRecord.EndOfMessage]

/-- Method `NtsKeConnection::do_request` (src/nts_ke.rs): run the fixed exchange,
require exactly one AEAD id equal to 15 and exactly one protocol id equal
to 0, derive both directional keys from the TLS exporter, resolve the
effective UDP address (Server/Port override, else original host and port
123), and return cookies, address and keys as one tuple. -/
def do_request (host : String) (env : KeEnv) :
    Except TestError (List NtsCookie × SocketAddr × NtsKeys) :=
  match (exchange do_requestRecords env.incoming).2 with
  | .error e => .error e
  | .ok response =>
    match response.aead with
    | some [aeadId] =>
      (match aeadTryDeserialize aeadId with
       | none => .error (.Error "invalid AEAD")
       | some aead =>
         if aead ≠ 15 then
           failResponse "KE replied with an aead we did not ask for" response
         else
           match response.next_protocol with
           | some [protoId] =>
             (match protocolTryDeserialize protoId with
              | none => .error (.Error "invalid next protocol")
              | some next_protocol =>
                if next_protocol ≠ 0 then
                  failResponse "KE replied with an protocol we did not ask for" response
                else
                  match extract_nts_key env.exporter (c2sContext 0 aead) with
                  | none => .error (.Error "Could not extract session keys")
                  | some c2s =>
                    match extract_nts_key env.exporter (s2cContext 0 aead) with
                    | none => .error (.Error "Could not extract session keys")
                    | some s2c =>
                      match env.resolve (response.server.getD host)
                          (response.port.getD 123) with
                      | none => .error (.Error "Could not resolve")
                      | some udp_host =>
                        .ok (response.cookies, udp_host, { c2s := c2s, s2c := s2c }))
           | _ => failResponse "KE did not reply with exactly one next_protocol" response)
    | _ => failResponse "KE did not reply with exactly one AEAD" response

theorem do_request_unfold_ok (host : String) (env : KeEnv) (resp : Response)
    (hresp : (exchange do_requestRecords env.incoming).2 = .ok resp)
    (haead : resp.aead = some [15]) (hnp : resp.next_protocol = some [0]) :
    do_request host env =
      match extract_nts_key env.exporter (c2sContext 0 15) with
      | none => .error (.Error "Could not extract session keys")
      | some c2s =>
        match extract_nts_key env.exporter (s2cContext 0 15) with
        | none => .error (.Error "Could not extract session keys")
        | some s2c =>
          match env.resolve (resp.server.getD host) (resp.port.getD 123) with
          | none => .error (.Error "Could not resolve")
          | some udp_host => .ok (resp.cookies, udp_host, { c2s := c2s, s2c := s2c }) := by
  simp [do_request, hresp, haead, hnp, aeadTryDeserialize, protocolTryDeserialize]

theorem do_request_invalid (host : String) (env : KeEnv) (resp : Response)
    (hresp : (exchange do_requestRecords env.incoming).2 = .ok resp)
    (hbad : resp.aead ≠ some [15] ∨ resp.next_protocol ≠ some [0]) :
    resultOk (do_request host env) = none ∧
      ∀ exporter2, do_request host { env with exporter := exporter2 } = do_request host env := by
  rcases ha : resp.aead with - | ids
  · refine ⟨?_, fun e2 => ?_⟩ <;> simp [do_request, hresp, ha, resultOk, failResponse]
  · rcases ids with - | ⟨a, ids⟩
    · refine ⟨?_, fun e2 => ?_⟩ <;> simp [do_request, hresp, ha, resultOk, failResponse]
    · rcases ids with - | ⟨b, ids2⟩
      · by_cases h15 : a = 15
        · subst h15
          have hnpbad : resp.next_protocol ≠ some [0] := by
            rcases hbad with h | h
            · exact absurd ha h
            · exact h
          rcases hn : resp.next_protocol with - | nids
          · refine ⟨?_, fun e2 => ?_⟩ <;>
              simp [do_request, hresp, ha, hn, resultOk, failResponse, aeadTryDeserialize]
          · rcases nids with - | ⟨p, nids⟩
            · refine ⟨?_, fun e2 => ?_⟩ <;>
                simp [do_request, hresp, ha, hn, resultOk, failResponse, aeadTryDeserialize]
            · rcases nids with - | ⟨q, nids2⟩
              · by_cases hp0 : p = 0
                · exact absurd (hp0 ▸ hn) hnpbad
                · refine ⟨?_, fun e2 => ?_⟩ <;>
                    simp [do_request, hresp, ha, hn, resultOk, aeadTryDeserialize,
                      protocolTryDeserialize, hp0]
              · refine ⟨?_, fun e2 => ?_⟩ <;>
                  simp [do_request, hresp, ha, hn, resultOk, failResponse, aeadTryDeserialize]
        · by_cases h17 : a = 17
          · subst h17
            refine ⟨?_, fun e2 => ?_⟩ <;>
              simp [do_request, hresp, ha, resultOk, failResponse, aeadTryDeserialize]
          · refine ⟨?_, fun e2 => ?_⟩ <;>
              simp [do_request, hresp, ha, resultOk, aeadTryDeserialize, h15, h17]
      · refine ⟨?_, fun e2 => ?_⟩ <;>
          simp [do_request, hresp, ha, resultOk, failResponse]

theorem do_request_ok_fields (host : String) (env : KeEnv)
    (out : List NtsCookie × SocketAddr × NtsKeys)
    (h : do_request host env = .ok out) :
    ∃ resp, (exchange do_requestRecords env.incoming).2 = .ok resp ∧
      resp.aead = some [15] ∧ resp.next_protocol = some [0] := by
  cases hexch : (exchange do_requestRecords env.incoming).2 with
  | error e => simp [do_request, hexch] at h
  | ok resp =>
    by_cases hgood : resp.aead = some [15] ∧ resp.next_protocol = some [0]
    · exact ⟨resp, rfl, hgood.1, hgood.2⟩
    · have hbad := do_request_invalid host env resp hexch (not_and_or.mp hgood)
      rw [h] at hbad
      exact absurd hbad.1 (by simp [resultOk])

/-! ## `NtsKeConnection::new` (src/nts_ke.rs lines 32-72) -/

/-- An opaque caller-supplied root certificate store
(`rustls::RootCertStore`); the model only tracks its identity. -/
structure RootCertStore where
  id : Nat
deriving DecidableEq, Repr

/-- The parts of `rustls::ClientConfig` the code under test manipulates. -/
structure ClientConfig where
  root_store : RootCertStore
  client_auth : Bool
  alpn_protocols : List (List Nat)
deriving DecidableEq, Repr

/-- Builder chain `ClientConfig::builder().with_root_certificates(..).with_no_client_auth()`:
the built config starts with whatever ALPN list the TLS library defaults
to, carries the given roots, and offers no client certificate. -/
def clientConfigBuilder (defaultAlpn : List (List Nat)) (roots : RootCertStore) :
    ClientConfig :=
  { root_store := roots, client_auth := false, alpn_protocols := defaultAlpn }

/-- The bytes of `b"ntske/1"`. -/
def ntske1 : List Nat := [110, 116, 115, 107, 101, 47, 49]

/-- The I/O environment of a `NtsKeConnection::new` call: DNS resolution
of (host, port), DNS-name validity of `host`, and the success of the TLS
client construction, the TCP connect and the two timeout setters. -/
structure ConnEnv where
  resolveHostPort : Option SocketAddr
  validDnsName : Bool
  tlsConnectOk : Bool
  tcpConnectOk : Bool
  setReadTimeoutOk : Bool
  setWriteTimeoutOk : Bool
  defaultAlpn : List (List Nat)

/-- The state an established `NtsKeConnection` carries that the claims
talk about: the TLS client configuration, the stored host, and the two
socket timeouts. -/
structure NtsKeConnectionState where
  config : ClientConfig
  host : String
  readTimeout : Nat
  writeTimeout : Nat
deriving DecidableEq, Repr

/-- Method `NtsKeConnection::new` (src/nts_ke.rs): resolve the address, build the
TLS config (clearing the ALPN list and pushing exactly `b"ntske/1"`, no
client certificate, the caller's root store), open the TLS and TCP
connections and set both socket timeouts to `timeout`. -/
def NtsKeConnection.new (host : String) (port : Nat) (root_cert_store : RootCertStore)
    (timeout : Nat) (env : ConnEnv) : Except TestError NtsKeConnectionState :=
  match env.resolveHostPort with
  | none => .error (.Error "Could not resolve host")
  | some _addr =>
    let config := clientConfigBuilder env.defaultAlpn root_cert_store
    let config := { config with alpn_protocols := [] }
    let config := { config with alpn_protocols := config.alpn_protocols ++ [ntske1] }
    if ¬ env.validDnsName then .error (.Error "invalid dnsname")
    else if ¬ env.tlsConnectOk then .error (.Error "Could not open TLS connection")
    else if ¬ env.tcpConnectOk then .error (.Error "Could not open TCP connection")
    else if ¬ env.setReadTimeoutOk then .error (.Error "Could not set read timeout")
    else if ¬ env.setWriteTimeoutOk then .error (.Error "Could not set write timeout")
    else .ok { config := config, host := host, readTimeout := timeout,
               writeTimeout := timeout }

/-! ## Session/Cookie Manager

Modelled from the spec: `TestConfig::take_cookie` and the `NtsServer`
session state are not under src/ (only their callers, src/nts.rs and
src/main.rs, are).  Spec §4.6: under one lock, if the pool is empty run
`do_request()` against the session's original host, require the freshly
resolved UDP target to equal the session's fixed target, append the new
cookies and replace the KeyPair; then pop and return one cookie together
with the current KeyPair.  Because the lock is held for the whole
check-refill-pop sequence, a run of concurrent callers is a sequence of
atomic `take_cookie` steps, which is how we model it. -/

/-- Spec §3 "Session state": resolved UDP target, unused-cookie pool,
current KeyPair. -/
structure SessionState where
  udpTarget : SocketAddr
  pool : List NtsCookie
  keys : NtsKeys
deriving DecidableEq, Repr

/-- Modelled from the spec: one `take_cookie()` call (spec §4.6).  The
pool order is irrelevant per spec §3, so the model pops from the front. -/
def take_cookie (host : String) (st : SessionState) (env : KeEnv) :
    Except TestError ((NtsCookie × NtsKeys) × SessionState) :=
  match st.pool with
  | c :: restPool => .ok ((c, st.keys), { st with pool := restPool })
  | [] =>
    match do_request host env with
    | .error e => .error e
    | .ok (cookies, addr, keys) =>
      if addr ≠ st.udpTarget then
        .error (.Fail "server switched UDP target" none)
      else
        match cookies with
        | [] => .error (.Fail "refill produced no cookies" none)
        | c :: restPool =>
          .ok ((c, keys), { udpTarget := st.udpTarget, pool := restPool, keys := keys })

/-- A sequence of `take_cookie` calls (the lock serializes concurrent
callers).  Returns the successfully handed-out (cookie, keys) pairs, the
final state, and how many calls found the pool empty (each such call runs
one `do_request` refill attempt).  A failed call leaves the state
unchanged, as spec §5 requires. -/
def takeCookieRun (host : String) (st : SessionState) :
    List KeEnv → List (NtsCookie × NtsKeys) × SessionState × Nat
  | [] => ([], st, 0)
  | env :: envs =>
    match take_cookie host st env with
    | .error _ =>
      let rest := takeCookieRun host st envs
      (rest.1, rest.2.1, rest.2.2 + (if st.pool = [] then 1 else 0))
    | .ok (ck, st2) =>
      let rest := takeCookieRun host st2 envs
      (ck :: rest.1, rest.2.1, rest.2.2 + (if st.pool = [] then 1 else 0))

/-- The cookies an environment's refill would contribute. -/
def envCookies (host : String) (env : KeEnv) : List NtsCookie :=
  match do_request host env with
  | .ok (cookies, _, _) => cookies
  | .error _ => []

/-- The cookies that can ever be handed out in a run: the pre-seeded pool
plus every refill's cookies. -/
def cookieSupply (host : String) (st : SessionState) (envs : List KeEnv) : List NtsCookie :=
  st.pool ++ (envs.map (envCookies host)).flatten

/-- Pair `(c, k)` was handed out with matching provenance: either `c` was
pre-seeded and `k` is the initial KeyPair, or some refill negotiation
produced `c` together with exactly `k`. -/
def pairOrigin (host : String) (st : SessionState) (envs : List KeEnv)
    (ck : NtsCookie × NtsKeys) : Prop :=
  (ck.1 ∈ st.pool ∧ ck.2 = st.keys) ∨
  ∃ env ∈ envs, ∃ cookies addr keys,
    do_request host env = .ok (cookies, addr, keys) ∧ ck.1 ∈ cookies ∧ ck.2 = keys

theorem take_cookie_pool_cons (host : String) (st : SessionState) (env : KeEnv)
    (c : NtsCookie) (rest : List NtsCookie) (hp : st.pool = c :: rest) :
    take_cookie host st env = .ok ((c, st.keys), { st with pool := rest }) := by
  simp [take_cookie, hp]

theorem takeCookieRun_length_of_no_refill (host : String) (envs : List KeEnv) :
    ∀ st : SessionState, (takeCookieRun host st envs).2.2 = 0 →
      (takeCookieRun host st envs).1.length ≤ st.pool.length := by
  induction envs with
  | nil => intro st _; simp [takeCookieRun]
  | cons env envs ih =>
    intro st h
    cases hp : st.pool with
    | nil =>
      exfalso
      simp only [takeCookieRun] at h
      cases htc : take_cookie host st env <;> simp [htc, hp] at h
    | cons c rest =>
      have hpne : st.pool ≠ [] := by simp [hp]
      rw [takeCookieRun, take_cookie_pool_cons host st env c rest hp] at h ⊢
      simp only [if_neg hpne, Nat.add_zero] at h
      have := ih { st with pool := rest } h
      simp only [List.length_cons, hp]
      simpa using Nat.add_le_add_right (by simpa using this) 1

theorem takeCookieRun_sound (host : String) (O : NtsCookie → NtsKeys → Prop)
    (envs : List KeEnv) :
    ∀ st : SessionState,
      (st.pool ++ (envs.map (envCookies host)).flatten).Nodup →
      (∀ c ∈ st.pool, O c st.keys) →
      (∀ env ∈ envs, ∀ cookies addr keys,
        do_request host env = .ok (cookies, addr, keys) → ∀ c ∈ cookies, O c keys) →
      (∀ ck ∈ (takeCookieRun host st envs).1, O ck.1 ck.2) ∧
      ((takeCookieRun host st envs).1.map Prod.fst).Nodup ∧
      (∀ ck ∈ (takeCookieRun host st envs).1,
        ck.1 ∈ st.pool ++ (envs.map (envCookies host)).flatten) := by
  induction envs with
  | nil =>
    intro st _ _ _
    simp [takeCookieRun]
  | cons env envs ih =>
    intro st hnodup hpool henvs
    cases hp : st.pool with
    | cons c rest =>
      have hsub : (rest ++ (envs.map (envCookies host)).flatten).Sublist
          (st.pool ++ ((env :: envs).map (envCookies host)).flatten) := by
        rw [hp, List.map_cons, List.flatten_cons]
        exact List.Sublist.append (List.sublist_cons_self c rest)
          (List.sublist_append_right _ _)
      obtain ⟨ih1, ih2, ih3⟩ := ih ⟨st.udpTarget, rest, st.keys⟩
        (List.Nodup.sublist hsub hnodup)
        (fun x hx => hpool x (by rw [hp]; exact List.mem_cons_of_mem c hx))
        (fun e he => henvs e (List.mem_cons_of_mem env he))
      have hnotin : c ∉ rest ++ ((env :: envs).map (envCookies host)).flatten := by
        rw [hp] at hnodup
        rw [List.cons_append] at hnodup
        exact (List.nodup_cons.mp hnodup).1
      have hstep := take_cookie_pool_cons host st env c rest hp
      refine ⟨?_, ?_, ?_⟩
      · intro ck hck
        simp only [takeCookieRun, hstep] at hck
        rcases List.mem_cons.mp hck with rfl | htail
        · exact hpool c (by rw [hp]; exact List.mem_cons_self c rest)
        · exact ih1 ck htail
      · simp only [takeCookieRun, hstep, List.map_cons]
        rw [List.nodup_cons]
        refine ⟨?_, ih2⟩
        intro hc
        obtain ⟨ck, hck, hfst⟩ := List.mem_map.mp hc
        have hmem := ih3 ck hck
        rw [hfst] at hmem
        apply hnotin
        rcases List.mem_append.mp hmem with hl | hr
        · exact List.mem_append_left _ hl
        · rw [List.map_cons, List.flatten_cons]
          exact List.mem_append_right _ (List.mem_append_right _ hr)
      · intro ck hck
        simp only [takeCookieRun, hstep] at hck
        rcases List.mem_cons.mp hck with rfl | htail
        · exact List.mem_append_left _ (List.mem_cons_self c rest)
        · have hmem := ih3 ck htail
          rcases List.mem_append.mp hmem with hl | hr
          · exact List.mem_append_left _ (List.mem_cons_of_mem c hl)
          · rw [List.map_cons, List.flatten_cons]
            exact List.mem_append_right _ (List.mem_append_right _ hr)
    | nil =>
      have hsub0 : (st.pool ++ (envs.map (envCookies host)).flatten).Sublist
          (st.pool ++ ((env :: envs).map (envCookies host)).flatten) := by
        rw [List.map_cons, List.flatten_cons]
        exact List.Sublist.append (List.Sublist.refl _) (List.sublist_append_right _ _)
      have hweak : ∀ x : NtsCookie, x ∈ (envs.map (envCookies host)).flatten →
          x ∈ ([] : List NtsCookie) ++ ((env :: envs).map (envCookies host)).flatten := by
        intro x hx
        rw [List.nil_append, List.map_cons, List.flatten_cons]
        exact List.mem_append_right _ hx
      obtain ⟨ih1, ih2, ih3⟩ := ih st
        (List.Nodup.sublist hsub0 hnodup) hpool
        (fun e he => henvs e (List.mem_cons_of_mem env he))
      cases hdo : do_request host env with
      | error e =>
        have hstep : take_cookie host st env = .error e := by
          simp [take_cookie, hp, hdo]
        refine ⟨?_, ?_, ?_⟩
        · intro ck hck
          simp only [takeCookieRun, hstep] at hck
          exact ih1 ck hck
        · simp only [takeCookieRun, hstep]
          exact ih2
        · intro ck hck
          simp only [takeCookieRun, hstep] at hck
          have hmem := ih3 ck hck
          rw [hp] at hmem
          exact hweak _ (by simpa using hmem)
      | ok out =>
        obtain ⟨cookies, addr, keys⟩ := out
        by_cases haddr : addr = st.udpTarget
        · cases hcs : cookies with
          | nil =>
            have hstep : take_cookie host st env =
                .error (.Fail "refill produced no cookies" none) := by
              simp [take_cookie, hp, hdo, haddr, hcs]
            refine ⟨?_, ?_, ?_⟩
            · intro ck hck
              simp only [takeCookieRun, hstep] at hck
              exact ih1 ck hck
            · simp only [takeCookieRun, hstep]
              exact ih2
            · intro ck hck
              simp only [takeCookieRun, hstep] at hck
              have hmem := ih3 ck hck
              rw [hp] at hmem
              exact hweak _ (by simpa using hmem)
          | cons c cs =>
            have hstep : take_cookie host st env =
                .ok ((c, keys), ⟨st.udpTarget, cs, keys⟩) := by
              simp [take_cookie, hp, hdo, haddr, hcs]
            have hec : envCookies host env = c :: cs := by
              simp [envCookies, hdo, hcs]
            have hOnew : ∀ x ∈ c :: cs, O x keys := by
              intro x hx
              refine henvs env (List.mem_cons_self env envs) cookies addr keys hdo x ?_
              rw [hcs]
              exact hx
            have hsub2 : (cs ++ (envs.map (envCookies host)).flatten).Sublist
                (st.pool ++ ((env :: envs).map (envCookies host)).flatten) := by
              rw [hp, List.map_cons, List.flatten_cons, hec, List.nil_append,
                List.cons_append]
              exact List.Sublist.cons c (List.Sublist.refl _)
            have hnotin : c ∉ cs ++ (envs.map (envCookies host)).flatten := by
              rw [hp, List.map_cons, List.flatten_cons, hec, List.nil_append,
                List.cons_append] at hnodup
              exact (List.nodup_cons.mp hnodup).1
            obtain ⟨jh1, jh2, jh3⟩ := ih ⟨st.udpTarget, cs, keys⟩
              (List.Nodup.sublist hsub2 hnodup)
              (fun x hx => hOnew x (List.mem_cons_of_mem c hx))
              (fun e he => henvs e (List.mem_cons_of_mem env he))
            refine ⟨?_, ?_, ?_⟩
            · intro ck hck
              simp only [takeCookieRun, hstep] at hck
              rcases List.mem_cons.mp hck with rfl | htail
              · exact hOnew c (List.mem_cons_self c cs)
              · exact jh1 ck htail
            · simp only [takeCookieRun, hstep, List.map_cons]
              rw [List.nodup_cons]
              refine ⟨?_, jh2⟩
              intro hc
              obtain ⟨ck, hck, hfst⟩ := List.mem_map.mp hc
              have hmem := jh3 ck hck
              rw [hfst] at hmem
              exact hnotin hmem
            · intro ck hck
              simp only [takeCookieRun, hstep] at hck
              rcases List.mem_cons.mp hck with rfl | htail
              · rw [List.nil_append, List.map_cons, List.flatten_cons, hec]
                exact List.mem_append_left _ (List.mem_cons_self c cs)
              · have hmem := jh3 ck htail
                rcases List.mem_append.mp hmem with hl | hr
                · rw [List.nil_append, List.map_cons, List.flatten_cons, hec]
                  exact List.mem_append_left _ (List.mem_cons_of_mem c hl)
                · exact hweak _ hr
        · have hstep : take_cookie host st env =
              .error (.Fail "server switched UDP target" none) := by
            simp [take_cookie, hp, hdo, haddr]
          refine ⟨?_, ?_, ?_⟩
          · intro ck hck
            simp only [takeCookieRun, hstep] at hck
            exact ih1 ck hck
          · simp only [takeCookieRun, hstep]
            exact ih2
          · intro ck hck
            simp only [takeCookieRun, hstep] at hck
            have hmem := ih3 ck hck
            rw [hp] at hmem
            exact hweak _ (by simpa using hmem)

theorem take_cookie_nonempty_no_refill (host : String) (st : SessionState)
    (hne : st.pool ≠ []) (env env2 : KeEnv) :
    take_cookie host st env = take_cookie host st env2 := by
  cases hp : st.pool with
  | nil => exact absurd hp hne
  | cons c rest =>
    rw [take_cookie_pool_cons host st env c rest hp,
      take_cookie_pool_cons host st env2 c rest hp]

/-! ## Claim theorems -/

/-- C1: `NtsKeConnection::exchange` serializes all request records into one
buffer written by a single flush, accumulates the decoded response records
until end-of-stream, and produces the validated `Response` of the
accumulated records exactly when the last accumulated record at
end-of-stream is EndOfMessage; otherwise it fails with a `TestError::Fail`
carrying the accumulated records — including a stream closed mid-record or
with no records at all, both of which surface as plain end-of-stream. -/
theorem claim_C1_exchange_flush_and_eom (request incoming : List NtsRecord) :
    (exchange request incoming).1 = (request.map encodeRecord).flatten ∧
    (exchange request incoming).2 =
      (if incoming.getLast? = some NtsRecord.EndOfMessage
       then Response.tryFrom incoming
       else failRecords "NTS-KE closed connection without sending EndOfMessage" incoming) := by
  refine ⟨rfl, ?_⟩
  show ((match exchangeLoop [] incoming with
         | Except.error e => Except.error e
         | Except.ok records => Response.tryFrom records) : Except TestError Response) = _
  rw [exchangeLoop_eq]
  by_cases h : incoming.getLast? = some NtsRecord.EndOfMessage
  · simp [h]
  · simp [h, failRecords]

/-- C2: `Response::try_from` succeeds exactly when the record list has one
EndOfMessage, last in sequence, at most one each of NextProtocol,
AeadAlgorithm, Server and Port, and no record outside the recognized
response set (no `Unknown`); every rejection is a `TestError::Fail`
carrying the full raw record list. -/
theorem claim_C2_response_validation (records : List NtsRecord) :
    ((∃ resp, Response.tryFrom records = .ok resp) ↔
      (records.getLast? = some NtsRecord.EndOfMessage ∧
       records.countP isEOMRec = 1 ∧
       records.countP isNPRec ≤ 1 ∧ records.countP isAeadRec ≤ 1 ∧
       records.countP isServerRec ≤ 1 ∧ records.countP isPortRec ≤ 1 ∧
       records.countP isUnknownRec = 0)) ∧
    (∀ e, Response.tryFrom records = .error e →
      ∃ msg, e = .Fail msg (some (.records records))) :=
  ⟨tryFrom_ok_iff records, fun _ h => tryFrom_err h⟩

theorem claim_C2_response_validation_witness :
    ∃ resp, Response.tryFrom [NtsRecord.EndOfMessage] = .ok resp :=
  (claim_C2_response_validation [NtsRecord.EndOfMessage]).1.mpr (by decide)

/-- C7: converting a `Request` into records always yields NextProtocol,
then AeadAlgorithm, then the optional Server, then the optional Port, and
the sequence ends with exactly one EndOfMessage record. -/
theorem claim_C7_request_record_order (req : Request) :
    req.intoIter =
      NtsRecord.NextProtocol req.next_protocol ::
      NtsRecord.AeadAlgorithm req.critical_aead req.aead ::
      ((req.server.map (fun s => NtsRecord.Server false s)).toList ++
       (req.port.map (fun p => NtsRecord.Port false p)).toList ++
       [NtsRecord.EndOfMessage]) ∧
    req.intoIter.countP isEOMRec = 1 ∧
    req.intoIter.getLast? = some NtsRecord.EndOfMessage := by
  obtain ⟨np, aead, crit, server, port⟩ := req
  rcases server with - | s <;> rcases port with - | p <;>
    simp [Request.intoIter, List.countP_cons, List.countP_append, isEOMRec]

/-- C9: for every constructible NTS-KE record, encoding never fails (the
encoder is a total function) and decoding the encoded bytes returns the
same record, consuming exactly the full encoded length. -/
theorem claim_C9_record_roundtrip (r : NtsRecord) (hr : wfRecord r) :
    decodeRecord (encodeRecord r) = .done r (encodeRecord r).length :=
  decodeRecord_encodeRecord hr

theorem claim_C9_record_roundtrip_witness :
    wfRecord (NtsRecord.Port false 123) ∧
    decodeRecord (encodeRecord (NtsRecord.Port false 123)) =
      .done (NtsRecord.Port false 123) (encodeRecord (NtsRecord.Port false 123)).length :=
  ⟨by norm_num [wfRecord], claim_C9_record_roundtrip _ (by norm_num [wfRecord])⟩

/-- C10: `Response::try_from` ignores the critical bit of incoming
records: two record lists that differ only in the critical flags of their
AeadAlgorithm, Server or Port records (i.e. with equal `stripCrit`
images) either fail on both or succeed on both with identical `Response`
field values. -/
theorem claim_C10_critical_flag_ignored (l l2 : List NtsRecord)
    (h : l.map stripCrit = l2.map stripCrit) :
    resultOk (Response.tryFrom l) = resultOk (Response.tryFrom l2) :=
  tryFrom_stripCrit h

theorem claim_C10_critical_flag_ignored_witness :
    (([NtsRecord.AeadAlgorithm false [15], NtsRecord.Port true 123,
       NtsRecord.EndOfMessage].map stripCrit) =
     ([NtsRecord.AeadAlgorithm true [15], NtsRecord.Port false 123,
       NtsRecord.EndOfMessage].map stripCrit)) ∧
    resultOk (Response.tryFrom [NtsRecord.AeadAlgorithm false [15],
      NtsRecord.Port true 123, NtsRecord.EndOfMessage]) =
    resultOk (Response.tryFrom [NtsRecord.AeadAlgorithm true [15],
      NtsRecord.Port false 123, NtsRecord.EndOfMessage]) :=
  ⟨by decide, claim_C10_critical_flag_ignored _ _ (by decide)⟩

/-- C3: `do_request` sends the fixed request (NextProtocol [0],
non-critical AeadAlgorithm [15], EndOfMessage) and succeeds only when the
response's aead field is exactly [15] and its next_protocol field is
exactly [0]; an absent, empty, longer, or differing list makes it fail,
and that failure happens before any key derivation (it does not depend on
the TLS exporter at all). -/
theorem claim_C3_do_request_negotiation (host : String) (env : KeEnv) :
    do_requestRecords =
      [NtsRecord.NextProtocol [0], NtsRecord.AeadAlgorithm false [15],
       NtsRecord.EndOfMessage] ∧
    (∀ out, do_request host env = .ok out →
      ∃ resp, (exchange do_requestRecords env.incoming).2 = .ok resp ∧
        resp.aead = some [15] ∧ resp.next_protocol = some [0]) ∧
    (∀ resp, (exchange do_requestRecords env.incoming).2 = .ok resp →
      resp.aead ≠ some [15] ∨ resp.next_protocol ≠ some [0] →
      resultOk (do_request host env) = none ∧
        ∀ exporter2, do_request host { env with exporter := exporter2 } =
          do_request host env) :=
  ⟨rfl, fun out h => do_request_ok_fields host env out h,
   fun resp hexch hbad => do_request_invalid host env resp hexch hbad⟩

/-- A concrete compliant NTS-KE server environment used to witness the
`do_request` claims: the stream negotiates protocol 0 and AEAD 15 and
hands out two cookies. -/
def exEnv : KeEnv :=
  { exporter := fun _ _ => some [7],
    resolve := fun _ _ => some ⟨"198.51.100.7:123"⟩,
    incoming := [NtsRecord.NextProtocol [0], NtsRecord.AeadAlgorithm false [15],
                 NtsRecord.NewCookie [1], NtsRecord.NewCookie [2],
                 NtsRecord.EndOfMessage] }

/-- The `Response` the exchange of [`exEnv`] validates to. -/
def exResp : Response :=
  { next_protocol := some [0], errors := [], warnings := [], aead := some [15],
    cookies := [⟨[1]⟩, ⟨[2]⟩], server := none, port := none }

theorem claim_C3_do_request_negotiation_witness :
    ∃ resp, (exchange do_requestRecords exEnv.incoming).2 = .ok resp ∧
      resp.aead = some [15] ∧ resp.next_protocol = some [0] :=
  (claim_C3_do_request_negotiation "example.test" exEnv).2.1
    (exResp.cookies, ⟨"198.51.100.7:123"⟩, { c2s := [7], s2c := [7] }) rfl

/-- C5: after a successful negotiation, `do_request` derives both
directional keys via the TLS exporter with the fixed label
"EXPORTER-network-time-security" and 5-byte contexts; the two directions
use distinct contexts, each context determines the protocol and AEAD ids
it is bound to, a failing exporter makes `do_request` fail, and a
succeeding exporter's outputs become exactly the returned key pair. -/
theorem claim_C5_key_export (host : String) (env : KeEnv) (resp : Response)
    (hresp : (exchange do_requestRecords env.incoming).2 = .ok resp)
    (haead : resp.aead = some [15]) (hnp : resp.next_protocol = some [0]) :
    exporterLabel = "EXPORTER-network-time-security" ∧
    (c2sContext 0 15).length = 5 ∧ (s2cContext 0 15).length = 5 ∧
    c2sContext 0 15 ≠ s2cContext 0 15 ∧
    (∀ p a p2 a2, p < 65536 → a < 65536 → p2 < 65536 → a2 < 65536 →
      (c2sContext p a = c2sContext p2 a2 → p = p2 ∧ a = a2) ∧
      (s2cContext p a = s2cContext p2 a2 → p = p2 ∧ a = a2)) ∧
    ((env.exporter exporterLabel (c2sContext 0 15) = none ∨
      env.exporter exporterLabel (s2cContext 0 15) = none) →
      resultOk (do_request host env) = none) ∧
    (∀ c2s s2c out, env.exporter exporterLabel (c2sContext 0 15) = some c2s →
      env.exporter exporterLabel (s2cContext 0 15) = some s2c →
      do_request host env = .ok out → out.2.2 = { c2s := c2s, s2c := s2c }) := by
  have hunfold := do_request_unfold_ok host env resp hresp haead hnp
  refine ⟨rfl, rfl, rfl, by decide, ?_, ?_, ?_⟩
  · intro p a p2 a2 hp ha hp2 ha2
    constructor
    · intro hctx
      simp only [c2sContext, List.cons.injEq, and_true] at hctx
      omega
    · intro hctx
      simp only [s2cContext, List.cons.injEq, and_true] at hctx
      omega
  · intro hnone
    rcases hnone with hno | hno
    · rw [hunfold]
      simp [extract_nts_key, hno, resultOk]
    · rw [hunfold]
      cases hc2s : env.exporter exporterLabel (c2sContext 0 15) <;>
        simp [extract_nts_key, hc2s, hno, resultOk]
  · intro c2s s2c out hc2s hs2c hout
    rw [hunfold] at hout
    simp only [extract_nts_key, hc2s, hs2c] at hout
    cases hres : env.resolve (resp.server.getD host) (resp.port.getD 123) with
    | none => rw [hres] at hout; exact Except.noConfusion hout
    | some addr =>
      rw [hres] at hout
      have := Except.ok.inj hout
      rw [← this]

theorem claim_C5_key_export_witness :
    (c2sContext 0 15).length = 5 ∧ c2sContext 0 15 ≠ s2cContext 0 15 :=
  ⟨(claim_C5_key_export "example.test" exEnv exResp rfl rfl rfl).2.1,
   (claim_C5_key_export "example.test" exEnv exResp rfl rfl rfl).2.2.2.1⟩

/-- C6: for every successful `do_request`, the returned UDP address is
resolved from the response's Server override when present (else the
original host) and the response's Port override when present (else 123);
failure to resolve is an error, and cookies, address and keys come back
as one tuple. -/
theorem claim_C6_udp_target (host : String) (env : KeEnv) (resp : Response)
    (c2s s2c : List Nat)
    (hresp : (exchange do_requestRecords env.incoming).2 = .ok resp)
    (haead : resp.aead = some [15]) (hnp : resp.next_protocol = some [0])
    (hc2s : env.exporter exporterLabel (c2sContext 0 15) = some c2s)
    (hs2c : env.exporter exporterLabel (s2cContext 0 15) = some s2c) :
    (env.resolve (resp.server.getD host) (resp.port.getD 123) = none →
      resultOk (do_request host env) = none) ∧
    (∀ addr, env.resolve (resp.server.getD host) (resp.port.getD 123) = some addr →
      do_request host env = .ok (resp.cookies, addr, { c2s := c2s, s2c := s2c })) := by
  have hunfold := do_request_unfold_ok host env resp hresp haead hnp
  constructor
  · intro hres
    rw [hunfold]
    simp [extract_nts_key, hc2s, hs2c, hres, resultOk]
  · intro addr hres
    rw [hunfold]
    simp [extract_nts_key, hc2s, hs2c, hres]

theorem claim_C6_udp_target_witness :
    do_request "example.test" exEnv =
      .ok (exResp.cookies, ⟨"198.51.100.7:123"⟩, { c2s := [7], s2c := [7] }) :=
  (claim_C6_udp_target "example.test" exEnv exResp [7] [7] rfl rfl rfl rfl rfl).2
    ⟨"198.51.100.7:123"⟩ rfl

/-- C8: `NtsKeConnection::new` builds a TLS client offering exactly one
ALPN value, the bytes of "ntske/1" (library defaults cleared first), with
no client certificate, validating against the caller's root store, and
applies the given timeout as both read and write timeout; failure of
resolution, DNS-name parsing, TLS setup, TCP connect or timeout setting
yields an error. -/
theorem claim_C8_connection_setup (host : String) (port : Nat)
    (roots : RootCertStore) (timeout : Nat) (env : ConnEnv) :
    ntske1 = "ntske/1".data.map Char.toNat ∧
    (∀ conn, NtsKeConnection.new host port roots timeout env = .ok conn →
      conn.config.alpn_protocols = [ntske1] ∧
      conn.config.client_auth = false ∧
      conn.config.root_store = roots ∧
      conn.readTimeout = timeout ∧ conn.writeTimeout = timeout) ∧
    ((env.resolveHostPort = none ∨ env.validDnsName = false ∨
      env.tlsConnectOk = false ∨ env.tcpConnectOk = false ∨
      env.setReadTimeoutOk = false ∨ env.setWriteTimeoutOk = false) →
      resultOk (NtsKeConnection.new host port roots timeout env) = none) := by
  refine ⟨by decide, ?_, ?_⟩
  · intro conn h
    cases hres : env.resolveHostPort with
    | none => rw [NtsKeConnection.new, hres] at h; exact Except.noConfusion h
    | some addr =>
      rw [NtsKeConnection.new, hres] at h
      simp only [clientConfigBuilder] at h
      split_ifs at h
      have := Except.ok.inj h
      rw [← this]
      exact ⟨rfl, rfl, rfl, rfl, rfl⟩
  · intro hdisj
    cases hres : env.resolveHostPort with
    | none => simp [NtsKeConnection.new, hres, resultOk]
    | some addr =>
      have hflag : env.validDnsName = false ∨ env.tlsConnectOk = false ∨
          env.tcpConnectOk = false ∨ env.setReadTimeoutOk = false ∨
          env.setWriteTimeoutOk = false := by
        rcases hdisj with h | h
        · rw [hres] at h; exact Option.noConfusion h
        · exact h
      rw [NtsKeConnection.new, hres]
      rcases hflag with h | h | h | h | h <;>
        simp only [h, Bool.false_eq_true, not_false_eq_true, if_true] <;>
        first
          | (split_ifs <;> simp [resultOk])
          | simp [resultOk]

/-- A fully successful environment for `NtsKeConnection::new`, with a
non-empty library-default ALPN list that must get cleared. -/
def exConnEnv : ConnEnv :=
  { resolveHostPort := some ⟨"192.0.2.1:4460"⟩, validDnsName := true,
    tlsConnectOk := true, tcpConnectOk := true, setReadTimeoutOk := true,
    setWriteTimeoutOk := true, defaultAlpn := [[104, 50]] }

/-- The connection state `NtsKeConnection::new` returns under
[`exConnEnv`]. -/
def exConn : NtsKeConnectionState :=
  { config := { root_store := ⟨0⟩, client_auth := false, alpn_protocols := [ntske1] },
    host := "example.test", readTimeout := 5, writeTimeout := 5 }

theorem claim_C8_connection_setup_witness :
    exConn.config.alpn_protocols = [ntske1] ∧
    exConn.config.client_auth = false ∧
    exConn.config.root_store = ⟨0⟩ ∧
    exConn.readTimeout = 5 ∧ exConn.writeTimeout = 5 :=
  (claim_C8_connection_setup "example.test" 4460 ⟨0⟩ 5 exConnEnv).2.1 exConn rfl

/-- C4: the Session/Cookie Manager's `take_cookie` (modelled from the
spec, see [`take_cookie`]): a call with a non-empty pool never consults
the network, a call with an empty pool runs exactly the `do_request`
refill (and N successful calls against a pool pre-seeded with fewer than
N cookies force at least one refill); a refill whose freshly resolved UDP
target differs from the session's fixed target fails with the
invariant-violation failure and does not update the state; and when the
available cookies are pairwise distinct, no cookie is ever returned to
two calls and every returned KeyPair is the one of the returned cookie's
originating negotiation (or the pre-seeded pool's KeyPair). -/
theorem claim_C4_cookie_manager (host : String) (st : SessionState)
    (envs : List KeEnv) :
    (st.pool ≠ [] → ∀ env env2 : KeEnv,
      take_cookie host st env = take_cookie host st env2) ∧
    (∀ env : KeEnv, st.pool = [] →
      take_cookie host st env =
        (match do_request host env with
         | .error e => .error e
         | .ok (cookies, addr, keys) =>
           if addr ≠ st.udpTarget then
             .error (.Fail "server switched UDP target" none)
           else
             match cookies with
             | [] => .error (.Fail "refill produced no cookies" none)
             | c :: restPool =>
               .ok ((c, keys), ⟨st.udpTarget, restPool, keys⟩))) ∧
    (st.pool.length < envs.length →
      (takeCookieRun host st envs).1.length = envs.length →
      1 ≤ (takeCookieRun host st envs).2.2) ∧
    (∀ env cookies addr keys, st.pool = [] →
      do_request host env = .ok (cookies, addr, keys) → addr ≠ st.udpTarget →
      take_cookie host st env = .error (.Fail "server switched UDP target" none)) ∧
    ((st.pool ++ (envs.map (envCookies host)).flatten).Nodup →
      ((takeCookieRun host st envs).1.map Prod.fst).Nodup ∧
      ∀ ck ∈ (takeCookieRun host st envs).1, pairOrigin host st envs ck) := by
  refine ⟨take_cookie_nonempty_no_refill host st, ?_, ?_, ?_, ?_⟩
  · intro env hp
    simp [take_cookie, hp]
  · intro hlen hall
    by_contra hcon
    push_neg at hcon
    have h0 : (takeCookieRun host st envs).2.2 = 0 := by omega
    have := takeCookieRun_length_of_no_refill host envs st h0
    omega
  · intro env cookies addr keys hp hdo hne
    simp [take_cookie, hp, hdo, hne]
  · intro hnodup
    have := takeCookieRun_sound host
      (fun c k => pairOrigin host st envs (c, k)) envs st hnodup
      (fun c hc => Or.inl ⟨hc, rfl⟩)
      (fun env he cookies addr keys hdo c hc =>
        Or.inr ⟨env, he, cookies, addr, keys, hdo, hc, rfl⟩)
    exact ⟨this.2.1, fun ck hck => by
      have h1 := this.1 ck hck
      simpa using h1⟩

/-- A refill environment whose negotiation resolves to the fixed target
`"203.0.113.9:123"`. -/
def exEnv4 : KeEnv :=
  { exEnv with resolve := fun _ _ => some ⟨"203.0.113.9:123"⟩ }

/-- An initial session with an empty pool at target "203.0.113.9:123". -/
def exSt : SessionState :=
  { udpTarget := ⟨"203.0.113.9:123"⟩, pool := [], keys := { c2s := [9], s2c := [9] } }

theorem claim_C4_cookie_manager_witness :
    (exSt.pool.length < [exEnv4].length ∧
      (takeCookieRun "example.test" exSt [exEnv4]).1.length = [exEnv4].length ∧
      1 ≤ (takeCookieRun "example.test" exSt [exEnv4]).2.2) ∧
    ((exSt.pool ++ ([exEnv4].map (envCookies "example.test")).flatten).Nodup ∧
      ((takeCookieRun "example.test" exSt [exEnv4]).1.map Prod.fst).Nodup) :=
  ⟨⟨by decide, by decide,
    (claim_C4_cookie_manager "example.test" exSt [exEnv4]).2.2.1 (by decide) (by decide)⟩,
   ⟨by decide,
    ((claim_C4_cookie_manager "example.test" exSt [exEnv4]).2.2.2.2 (by decide)).1⟩⟩

end Pester
